import Mathlib

/-!
Verification development for the Defold editor discovery and command dispatch
module of the `vscode-defold-buddy` extension.

The embedding models the two source files:
  * `defold-editor.ts` (the port resolver, port cache, liveness prober,
    log scanner and command dispatcher), and
  * `commands/editor-hot-reload-command.ts` (the save-triggered hot reload).

Modelling conventions:
  * HTTP traffic is an oracle `Nat → HttpRequest → HttpResult`: the response
    the network gives to the n-th HTTP call of a resolution (responses may
    change over time, as real editor instances start and stop).
  * The persisted `globalState` entry for the key `defoldEditorPort` is an
    `Option String` (`none` models the key being absent / set to `undefined`).
  * A log file is modelled by the list of its text lines, in file order
    (the source streams the file line by line through a readline interface).
  * User interaction is an oracle list of `PromptAnswer`s, one consumed per
    prompt shown; an exhausted list means the dialog is dismissed, which in
    the source resolves to the default branch of the `switch` (no retry).
  * Every resolution records a trace of `REvent`s (probes, log scans, cache
    writes, prompts, dispatches) so that call-order properties are statable.
-/

namespace DefoldBuddy

set_option maxRecDepth 200000

/-- An HTTP request as built by the source: method, url, optional body and
the axios timeout in milliseconds. -/
structure HttpRequest where
  method : String
  url : String
  body : Option String
  timeoutMs : Nat
deriving DecidableEq, Repr

/-- The outcome of one HTTP call: a response with a status code, or
`failure` for any network error, timeout or other thrown error. -/
inductive HttpResult where
  | status (code : Nat)
  | failure
deriving DecidableEq, Repr

/-- Source: `const editorBaseUrl = 'http://localhost';`. -/
def editorBaseUrl : String := "http://localhost"

/-- The GET request issued by `isDefoldEditorRunning` for a given port:
`axios.get(editorBaseUrl:port/command/, timeout 1500)`. -/
def probeRequestFor (port : String) : HttpRequest :=
  ⟨"GET", editorBaseUrl ++ ":" ++ port ++ "/command/", none, 1500⟩

/-- The POST request issued by `executeCommandInDefoldEditor`:
`axios.post(editorBaseUrl:editorPort/command/command, null, timeout 2000)`. -/
def commandRequestFor (editorPort command : String) : HttpRequest :=
  ⟨"POST", editorBaseUrl ++ ":" ++ editorPort ++ "/command/" ++ command, none, 2000⟩

/-- Source `isDefoldEditorRunning`: issue the probe GET; true iff
`200 <= status < 300`; the `try/catch` turns every thrown error (network
error, timeout) into `false`, so the embedding is a total function. -/
def isDefoldEditorRunning (http : HttpRequest → HttpResult) (port : String) : Bool :=
  match http (probeRequestFor port) with
  | HttpResult.status s => decide (200 ≤ s ∧ s < 300)
  | HttpResult.failure => false

/-- Source `executeCommandInDefoldEditor`: issue the command POST; true iff
`200 <= status < 300`; the `try/catch` logs and returns `false` on any
thrown error. The second component is the list of requests issued by the
call (always exactly the one POST). -/
def executeCommandInDefoldEditor (http : HttpRequest → HttpResult)
    (editorPort command : String) : Bool × List HttpRequest :=
  match http (commandRequestFor editorPort command) with
  | HttpResult.status s => (decide (200 ≤ s ∧ s < 300), [commandRequestFor editorPort command])
  | HttpResult.failure => (false, [commandRequestFor editorPort command])

/-! ### Log scanner (`extractEditorPortsFrom`) -/

/-- JavaScript `line.includes(sub)`: substring containment, i.e. the
characters of `sub` form a contiguous infix of the characters of `line`. -/
def includesSub (line sub : String) : Bool :=
  decide (sub.data <:+: line.data)

/-- Marker for the UI application thread, from
`line.includes('[JavaFX Application Thread]')`. -/
def markJavaFXThread : String := "[JavaFX Application Thread]"

/-- Marker for the HTTP-server subsystem, from
`line.includes('util.http-server')`. -/
def markHttpServerSubsystem : String := "util.http-server"

/-- Marker for the server-running message, from
`line.includes(':msg "Http server running"')`. -/
def markServerRunningMsg : String := ":msg \"Http server running\""

/-- Drop an expected literal character sequence from the front of a
character list; `none` when the input does not start with the literal. -/
def dropLit : List Char → List Char → Option (List Char)
  | [], cs => some cs
  | _ :: _, [] => none
  | l :: ls, c :: cs => if c = l then dropLit ls cs else none

/-- Attempt to match the regular expression
`:local-url "(?<address>http:\/\/[^:]+):(?<port>\d+)"` anchored at the head
of the character list, returning the captured `port` group. The greedy
`[^:]+` necessarily ends at the first following colon (backtracking cannot
produce another split, since a shorter host would be followed by a
non-colon), and the greedy `\d+` must be followed directly by the closing
quote, so the match is deterministic. -/
def matchLocalUrlHere (cs : List Char) : Option String :=
  match dropLit (":local-url \"http://".data) cs with
  | none => none
  | some rest =>
    let host := rest.takeWhile (fun c => c != ':')
    let rest2 := rest.dropWhile (fun c => c != ':')
    if host.isEmpty then none
    else
      match rest2 with
      | ':' :: rest3 =>
        let digits := rest3.takeWhile (fun c => c.isDigit)
        let rest4 := rest3.dropWhile (fun c => c.isDigit)
        if digits.isEmpty then none
        else
          match rest4 with
          | '\"' :: _ => some (String.mk digits)
          | _ => none
      | _ => none

/-- JavaScript `line.match(localUrlRegex)`: try the pattern at every start
position from left to right and return the first match's `port` group. -/
def findLocalUrlPort : List Char → Option String
  | [] => none
  | c :: cs =>
    match matchLocalUrlHere (c :: cs) with
    | some p => some p
    | none => findLocalUrlPort cs

/-- The body of the `rl.on('line', ...)` callback of `extractEditorPortsFrom`
for one line: skip lines missing the JavaFX-thread marker; on lines carrying
the http-server subsystem marker and the server-running message marker,
extract the port from the `:local-url` pattern (no port when the pattern
does not match). -/
def editorPortOfLogLine (line : String) : Option String :=
  if !(includesSub line markJavaFXThread) then none
  else if includesSub line markHttpServerSubsystem
      && includesSub line markServerRunningMsg then
    findLocalUrlPort line.data
  else none

/-- Source `extractEditorPortsFrom`, with the log file modelled by its list
of lines: push each extracted port onto the result array in file order,
then `result.reverse()` so the most recent ports come first. -/
def extractEditorPortsFrom (logLines : List String) : List String :=
  (logLines.foldl (fun result line =>
    match editorPortOfLogLine line with
    | some p => result ++ [p]
    | none => result) []).reverse

/-- The qualification predicate exactly as the claim words it: a line
qualifies iff it contains all three markers (this deliberately follows the
claim text, not the source, which additionally requires the `:local-url`
pattern to match; the two are compared in the scanner theorems). -/
def specQualifiesByMarkersOnly (line : String) : Bool :=
  includesSub line markJavaFXThread
    && includesSub line markHttpServerSubsystem
    && includesSub line markServerRunningMsg

/-! ### Resolution events and environment -/

/-- Observable actions of one resolution, in the order they happen:
`probeCall k p b` is the liveness probe that was the k-th HTTP call and
answered `b` for port `p`; `logScan` is one run of `extractEditorPortsFrom`;
`savePortWrite v` is one `globalState.update('defoldEditorPort', v)`;
`promptShown` is one display of the three-choice dialog; `dispatchCmd p c`
is one `executeCommandInDefoldEditor p c`. -/
inductive REvent where
  | probeCall (n : Nat) (port : String) (alive : Bool)
  | logScan
  | savePortWrite (value : Option String)
  | promptShown
  | dispatchCmd (port : String) (command : String)
deriving DecidableEq, Repr

/-- The external world of one resolution: the HTTP oracle (indexed by the
position of the call in the resolution, so an editor may appear or vanish
between calls) and the most recent log file found by the logs repository
(`none` when no log file exists), modelled by its list of lines. -/
structure Env where
  http : Nat → HttpRequest → HttpResult
  recentLogFile : Option (List String)

/-! ### Port cache -/

/-- Source `getSavedPortOfRunningEditor`: read the `defoldEditorPort` key
with default `''`; return the saved port only when it is non-empty (truthy)
and a liveness probe of it succeeds. The function only reads the
`globalState` entry — it performs no `update`, so the store is untouched.
Returns the result, the HTTP-call counter after the call, and the events. -/
def getSavedPortOfRunningEditor (env : Env) (n : Nat) (store : Option String) :
    Option String × Nat × List REvent :=
  let savedPort := store.getD ""
  if savedPort = "" then (none, n, [])
  else
    let alive := isDefoldEditorRunning (env.http n) savedPort
    (if alive then some savedPort else none, n + 1, [REvent.probeCall n savedPort alive])

/-- Source `savePort`: `globalState.update('defoldEditorPort', editorPort)` —
the stored value becomes `editorPort` (erasing it when `none`). -/
def savePort (editorPort : Option String) : Option String × List REvent :=
  (editorPort, [REvent.savePortWrite editorPort])

/-! ### Log-file fallback -/

/-- The `for await (const port of foundPorts)` loop of
`tryToFindEditorPortFromLogFiles`: probe candidates in order and return the
first live one. -/
def probeFirstLive (env : Env) : Nat → List String → Option String × Nat × List REvent
  | n, [] => (none, n, [])
  | n, p :: rest =>
    let alive := isDefoldEditorRunning (env.http n) p
    if alive then (some p, n + 1, [REvent.probeCall n p true])
    else
      let r := probeFirstLive env (n + 1) rest
      (r.1, r.2.1, REvent.probeCall n p false :: r.2.2)

/-- Source `tryToFindEditorPortFromLogFiles`: give up when no recent log
file exists; otherwise run the log scanner on it and probe the candidates
most-recent-first, returning the first live port. -/
def tryToFindEditorPortFromLogFiles (env : Env) (n : Nat) :
    Option String × Nat × List REvent :=
  match env.recentLogFile with
  | none => (none, n, [])
  | some logLines =>
    let found := extractEditorPortsFrom logLines
    let r := probeFirstLive env n found
    (r.1, r.2.1, REvent.logScan :: r.2.2)

/-- The cache/log-scan phase of `tryToFindRunningEditorAndExecuteCommand`
(its first three statements): `let port = await getSavedPortOfRunningEditor;
if (!port && detectPort) port = await tryToFindEditorPortFromLogFiles()`. -/
def resolvePhase (env : Env) (detectPort : Bool) (n : Nat) (store : Option String) :
    Option String × Nat × List REvent :=
  let c := getSavedPortOfRunningEditor env n store
  if c.1.isNone && detectPort then
    let r := tryToFindEditorPortFromLogFiles env c.2.1
    (r.1, r.2.1, c.2.2 ++ r.2.2)
  else c

/-! ### Interactive fallback -/

/-- What the environment does at one prompt: the user picks a button
(`openDefold`, `cancel`), or picks Input Port and the input box yields
`port` (`none` models an empty submission/escape), or the prompt machinery
itself fails, i.e. the promise returned by the dialog rejects. -/
inductive PromptAnswer where
  | openDefold
  | inputPort (port : Option String)
  | cancel
  | reject
deriving DecidableEq, Repr

/-- The value resolved by `askToOpenDefoldEditorOrInputPort`, as a JavaScript
object: the literals in the source are `{ retry: false }` and
`{ retry: true, port: port }`, so the object's own keys are `retry` and
(sometimes) `port`. The caller in `tryToFindRunningEditorAndExecuteCommand`
reads the property `portFromUser`, which is present on no literal the
function returns; reading an absent property yields `undefined`, modelled
here by a `portFromUser` field that every constructor leaves `none`. -/
structure PromptReturn where
  retry : Bool
  port : Option String
  portFromUser : Option String
deriving DecidableEq, Repr

/-- Source `const doNotRetryBuildingProject = { retry: false };`. -/
def doNotRetryBuildingProject : PromptReturn := ⟨false, none, none⟩

/-- Source `askToOpenDefoldEditorOrInputPort`: show the three-choice dialog;
`Open Defold` opens the editor and resolves `doNotRetryBuildingProject`;
`Input Port` asks for a port and resolves `{ retry: true, port: port }`
when the input is truthy (non-empty), else `doNotRetryBuildingProject`;
any other answer (Cancel or dismissal) resolves `doNotRetryBuildingProject`.
A rejection of the dialog promise makes this async function's promise
reject, modelled by `Except.error`. -/
def askToOpenDefoldEditorOrInputPort : PromptAnswer → Except Unit PromptReturn
  | PromptAnswer.reject => Except.error ()
  | PromptAnswer.openDefold => Except.ok doNotRetryBuildingProject
  | PromptAnswer.inputPort p =>
    match p with
    | some q =>
      if q = "" then Except.ok doNotRetryBuildingProject
      else Except.ok ⟨true, some q, none⟩
    | none => Except.ok doNotRetryBuildingProject
  | PromptAnswer.cancel => Except.ok doNotRetryBuildingProject

/-- Source `askToOpenDefoldEditorOrInputPortOrShowErrorMessage`: the
`try/catch` there can intercept only synchronous throws, but
`askToOpenDefoldEditorOrInputPort` is an async function, so calling it
returns a promise without ever throwing synchronously; a rejection of that
promise passes to the caller unchanged and the catch branch (which would
show the generic error message and resolve `doNotRetryBuildingProject`)
never runs. The embedding is therefore the identity on the inner
function's outcome, rejection included. -/
def askToOpenDefoldEditorOrInputPortOrShowErrorMessage (a : PromptAnswer) :
    Except Unit PromptReturn :=
  askToOpenDefoldEditorOrInputPort a

/-! ### The port resolver -/

/-- Decidable equality for promise outcomes, used to evaluate concrete
resolution scenarios inside proofs. -/
instance instDecEqExceptUnit {α : Type} [DecidableEq α] : DecidableEq (Except Unit α) :=
  fun x y =>
  match x, y with
  | Except.error a, Except.error b => isTrue (by cases a; cases b; rfl)
  | Except.ok a, Except.ok b =>
    if h : a = b then isTrue (congrArg Except.ok h)
    else isFalse (fun hc => h (Except.ok.inj hc))
  | Except.error _, Except.ok _ => isFalse (fun hc => Except.noConfusion hc)
  | Except.ok _, Except.error _ => isFalse (fun hc => Except.noConfusion hc)

/-- The full outcome of one `tryToFindRunningEditorAndExecuteCommand` call:
the returned promise (`Except.error` models a rejection escaping the call),
the final content of the `defoldEditorPort` entry, and the event trace. -/
structure ResolveOut where
  result : Except Unit Bool
  store : Option String
  events : List REvent
deriving DecidableEq, Repr

/-- Source `tryToFindRunningEditorAndExecuteCommand(command, detectPort)`,
with `showWindow` the instance field `showRunningDefoldEditorNotFoundWindow`.
In order: the cache/log-scan phase; an unconditional `savePort` of its
outcome; when no port was found and the window is enabled, the interactive
prompt (a `portFromUser` on the prompt result would be saved, and `retry`
re-invokes the function with `detectPort = false`); when no port was found
otherwise, `false`; else a fresh liveness probe of the port followed, on
success, by the command dispatch. The scripted answers decrease at each
recursion, which the source bounds by one prompt interaction per pass. -/
def tryToFindRunningEditorAndExecuteCommand (env : Env) (showWindow : Bool)
    (command : String) :
    List PromptAnswer → Bool → Nat → Option String → ResolveOut
  | answers, detectPort, n, store =>
    let phase := resolvePhase env detectPort n store
    let portOfRunningEditor := phase.1
    let n2 := phase.2.1
    let evPhase := phase.2.2 ++ [REvent.savePortWrite portOfRunningEditor]
    let store1 := portOfRunningEditor
    if portOfRunningEditor.isNone && showWindow then
      match answers with
      | [] =>
        -- no scripted response remains: the dialog is dismissed, which the
        -- source's switch resolves to the default branch, i.e.
        -- doNotRetryBuildingProject (no port, no retry), giving false
        ⟨Except.ok false, store1, evPhase ++ [REvent.promptShown]⟩
      | a :: restAnswers =>
        match askToOpenDefoldEditorOrInputPortOrShowErrorMessage a with
        | Except.error e =>
          -- the rejection escapes the awaiting caller: the whole call rejects
          ⟨Except.error e, store1, evPhase ++ [REvent.promptShown]⟩
        | Except.ok result =>
          let afterUserSave :=
            match result.portFromUser with
            | some p => savePort (some p)
            | none => (store1, ([] : List REvent))
          let store2 := afterUserSave.1
          let evU := afterUserSave.2
          if result.retry then
            let out := tryToFindRunningEditorAndExecuteCommand env showWindow
              command restAnswers false n2 store2
            ⟨out.result, out.store,
              evPhase ++ [REvent.promptShown] ++ evU ++ out.events⟩
          else ⟨Except.ok false, store2, evPhase ++ [REvent.promptShown] ++ evU⟩
    else
      match portOfRunningEditor with
      | none => ⟨Except.ok false, store1, evPhase⟩
      | some port =>
        let alive := isDefoldEditorRunning (env.http n2) port
        if alive then
          let d := executeCommandInDefoldEditor (env.http (n2 + 1)) port command
          ⟨Except.ok d.1, store1,
            evPhase ++ [REvent.probeCall n2 port true, REvent.dispatchCmd port command]⟩
        else ⟨Except.ok false, store1, evPhase ++ [REvent.probeCall n2 port false]⟩

/-! ### Invocation trigger: save-triggered hot reload -/

/-- Source list `fileExtensionsThatTriggerHotReload` from
`editor-hot-reload-command.ts`. -/
def fileExtensionsThatTriggerHotReload : List String :=
  [".script", ".lua", ".gui_script", ".ts"]

/-- JavaScript `fileName.endsWith(ext)`: the characters of `ext` are a
suffix of the characters of `fileName`. -/
def endsWithStr (s suf : String) : Bool :=
  decide (suf.data <:+ s.data)

/-- The string identifier of `EditorCommand.hotReload`. -/
def EditorCommand.hotReload : String := "hot-reload"

/-- The resolve-then-dispatch invocation the save handler performs: the
`DefoldEditor` it constructs has `showRunningDefoldEditorNotFoundWindow`
set to `false`, the dispatch is preceded by `sleep(delayMs)`, and the
dispatched command is hot reload. -/
structure HotReloadInvocation where
  showRunningDefoldEditorNotFoundWindow : Bool
  delayMs : Nat
  command : String
deriving DecidableEq, Repr

/-- The `onDidSaveTextDocument` handler of `registerEditorHotReloadCommand`:
when the saved file name ends with one of the allow-listed extensions,
construct a `DefoldEditor` with the not-found window suppressed, wait 300ms
first when the file name ends with `.ts` (to let the transpiler write its
output), and invoke the editor's command entry point with the hot-reload
command; otherwise do nothing. -/
def onDidSaveTextDocument (fileName : String) : Option HotReloadInvocation :=
  if fileExtensionsThatTriggerHotReload.any (fun ext => endsWithStr fileName ext) then
    some ⟨false, if endsWithStr fileName ".ts" then 300 else 0, EditorCommand.hotReload⟩
  else none

/-! ### Concrete scenario environments used by witnesses and counterexamples -/

/-- A log line carrying all three markers but no `:local-url` field. -/
def lineMarkersOnly : String :=
  "[JavaFX Application Thread] util.http-server :msg \"Http server running\""

/-- A realistic qualifying log line announcing port 12345. -/
def goodLogLine : String :=
  "[JavaFX Application Thread] INFO util.http-server :msg \"Http server running\", :local-url \"http://0.0.0.0:12345\""

/-- Environment for the manual-port scenario: every port is live (so a probe
of a user-supplied port would succeed) and the recent log file exists but
announces no port. -/
def envEveryPortLive : Env := ⟨fun _ _ => HttpResult.status 200, some []⟩

/-- Environment where no editor answers and no log file exists. -/
def envNothingLive : Env := ⟨fun _ _ => HttpResult.failure, none⟩

/-- Environment where only the very first HTTP call of the resolution
succeeds: a cached editor that dies right after the cache probe. -/
def envDiesAfterFirstProbe : Env :=
  ⟨fun n _ => if n = 0 then HttpResult.status 200 else HttpResult.failure, none⟩

/-- The end-to-end manual-port scenario of the spec: empty cache, a log file
with no qualifying lines, the user answers Input Port and types `7777`, and
every liveness probe would succeed. -/
def manualPortRun : ResolveOut :=
  tryToFindRunningEditorAndExecuteCommand envEveryPortLive true EditorCommand.hotReload
    [PromptAnswer.inputPort (some "7777")] true 0 none

/-- The prompt-failure scenario: empty cache, no log file, no editor
reachable, and the three-choice dialog's promise rejects. -/
def promptRejectRun : ResolveOut :=
  tryToFindRunningEditorAndExecuteCommand envNothingLive true "build"
    [PromptAnswer.reject] true 0 none

/-! ### Helper lemmas about event shapes -/

theorem probeFirstLive_events_shape (env : Env) :
    ∀ (ps : List String) (n : Nat), ∀ e ∈ (probeFirstLive env n ps).2.2,
      ∃ k q b, e = REvent.probeCall k q b := by
  intro ps
  induction ps with
  | nil => intro n e he; simp [probeFirstLive] at he
  | cons p rest ih =>
    intro n e he
    simp only [probeFirstLive] at he
    split at he
    · simp at he
      exact ⟨n, p, true, he⟩
    · simp at he
      rcases he with he | he
      · exact ⟨n, p, false, he⟩
      · exact ih (n + 1) e he

theorem getSaved_events_shape (env : Env) (n : Nat) (store : Option String) :
    ∀ e ∈ (getSavedPortOfRunningEditor env n store).2.2,
      ∃ k q b, e = REvent.probeCall k q b := by
  intro e he
  simp only [getSavedPortOfRunningEditor] at he
  split at he
  · simp at he
  · simp at he
    exact ⟨n, store.getD "", isDefoldEditorRunning (env.http n) (store.getD ""), he⟩

theorem logsFallback_events_shape (env : Env) (n : Nat) :
    ∀ e ∈ (tryToFindEditorPortFromLogFiles env n).2.2,
      (∃ k q b, e = REvent.probeCall k q b) ∨ e = REvent.logScan := by
  intro e he
  simp only [tryToFindEditorPortFromLogFiles] at he
  split at he
  · simp at he
  · simp at he
    rcases he with he | he
    · exact Or.inr he
    · exact Or.inl (probeFirstLive_events_shape env _ _ e he)

theorem resolvePhase_events_shape (env : Env) (d : Bool) (n : Nat) (store : Option String) :
    ∀ e ∈ (resolvePhase env d n store).2.2,
      (∃ k q b, e = REvent.probeCall k q b) ∨ e = REvent.logScan := by
  intro e he
  simp only [resolvePhase] at he
  split at he
  · simp only [List.mem_append] at he
    rcases he with he | he
    · exact Or.inl (getSaved_events_shape env n store e he)
    · exact logsFallback_events_shape env _ e he
  · exact Or.inl (getSaved_events_shape env n store e he)

theorem resolvePhase_noDetect (env : Env) (n : Nat) (store : Option String) :
    resolvePhase env false n store = getSavedPortOfRunningEditor env n store := by
  simp [resolvePhase]

theorem resolvePhase_cacheHit (env : Env) (d : Bool) (n : Nat) (store : Option String)
    (p : String) (h : (getSavedPortOfRunningEditor env n store).1 = some p) :
    resolvePhase env d n store = getSavedPortOfRunningEditor env n store := by
  simp [resolvePhase, h]

theorem promptReturn_portFromUser_none (a : PromptAnswer) (r : PromptReturn)
    (h : askToOpenDefoldEditorOrInputPortOrShowErrorMessage a = Except.ok r) :
    r.portFromUser = none := by
  cases a with
  | reject => simp [askToOpenDefoldEditorOrInputPortOrShowErrorMessage,
      askToOpenDefoldEditorOrInputPort] at h
  | openDefold =>
    simp [askToOpenDefoldEditorOrInputPortOrShowErrorMessage,
      askToOpenDefoldEditorOrInputPort, doNotRetryBuildingProject] at h
    simp [← h]
  | cancel =>
    simp [askToOpenDefoldEditorOrInputPortOrShowErrorMessage,
      askToOpenDefoldEditorOrInputPort, doNotRetryBuildingProject] at h
    simp [← h]
  | inputPort p =>
    cases p with
    | none =>
      simp [askToOpenDefoldEditorOrInputPortOrShowErrorMessage,
        askToOpenDefoldEditorOrInputPort, doNotRetryBuildingProject] at h
      simp [← h]
    | some q =>
      simp only [askToOpenDefoldEditorOrInputPortOrShowErrorMessage,
        askToOpenDefoldEditorOrInputPort] at h
      split at h
      · simp [doNotRetryBuildingProject] at h
        simp [← h]
      · simp at h
        simp [← h]

set_option maxRecDepth 20000 in
theorem resolve_portFound_eq (env : Env) (sw : Bool) (c : String)
    (answers : List PromptAnswer) (d : Bool) (n : Nat) (store : Option String)
    (p : String) (h : (resolvePhase env d n store).1 = some p) :
    tryToFindRunningEditorAndExecuteCommand env sw c answers d n store =
      (if isDefoldEditorRunning (env.http (resolvePhase env d n store).2.1) p then
        ⟨Except.ok (executeCommandInDefoldEditor
            (env.http ((resolvePhase env d n store).2.1 + 1)) p c).1, some p,
          (resolvePhase env d n store).2.2 ++
            [REvent.savePortWrite (some p),
             REvent.probeCall (resolvePhase env d n store).2.1 p true,
             REvent.dispatchCmd p c]⟩
      else
        ⟨Except.ok false, some p,
          (resolvePhase env d n store).2.2 ++
            [REvent.savePortWrite (some p),
             REvent.probeCall (resolvePhase env d n store).2.1 p false]⟩ : ResolveOut) := by
  cases answers with
  | nil =>
    rw [tryToFindRunningEditorAndExecuteCommand.eq_def]
    simp only [h, Option.isNone_some, Bool.false_and, Bool.false_eq_true, if_false]
    split
    · simp [List.append_assoc]
    · simp [List.append_assoc]
  | cons a rest =>
    rw [tryToFindRunningEditorAndExecuteCommand.eq_def]
    simp only [h, Option.isNone_some, Bool.false_and, Bool.false_eq_true, if_false]
    split
    · simp [List.append_assoc]
    · simp [List.append_assoc]

set_option maxRecDepth 20000 in
theorem resolve_noPort_noWindow_eq (env : Env) (c : String)
    (answers : List PromptAnswer) (d : Bool) (n : Nat) (store : Option String)
    (h : (resolvePhase env d n store).1 = none) :
    tryToFindRunningEditorAndExecuteCommand env false c answers d n store =
      ⟨Except.ok false, none,
        (resolvePhase env d n store).2.2 ++ [REvent.savePortWrite none]⟩ := by
  cases answers with
  | nil =>
    rw [tryToFindRunningEditorAndExecuteCommand.eq_def]
    simp only [h, Option.isNone_none, Bool.and_false, Bool.false_eq_true, if_false]
  | cons a rest =>
    rw [tryToFindRunningEditorAndExecuteCommand.eq_def]
    simp only [h, Option.isNone_none, Bool.and_false, Bool.false_eq_true, if_false]

set_option maxRecDepth 20000 in
theorem resolve_noPort_window_nil_eq (env : Env) (c : String)
    (d : Bool) (n : Nat) (store : Option String)
    (h : (resolvePhase env d n store).1 = none) :
    tryToFindRunningEditorAndExecuteCommand env true c [] d n store =
      ⟨Except.ok false, none,
        (resolvePhase env d n store).2.2 ++
          [REvent.savePortWrite none, REvent.promptShown]⟩ := by
  rw [tryToFindRunningEditorAndExecuteCommand.eq_def]
  simp only [h, Option.isNone_none, Bool.and_true, if_true]
  simp [List.append_assoc]

set_option maxRecDepth 20000 in
theorem resolve_noPort_window_reject_eq (env : Env) (c : String)
    (a : PromptAnswer) (rest : List PromptAnswer) (d : Bool) (n : Nat)
    (store : Option String) (e : Unit)
    (h : (resolvePhase env d n store).1 = none)
    (hask : askToOpenDefoldEditorOrInputPortOrShowErrorMessage a = Except.error e) :
    tryToFindRunningEditorAndExecuteCommand env true c (a :: rest) d n store =
      ⟨Except.error e, none,
        (resolvePhase env d n store).2.2 ++
          [REvent.savePortWrite none, REvent.promptShown]⟩ := by
  rw [tryToFindRunningEditorAndExecuteCommand.eq_def]
  simp only [h, Option.isNone_none, Bool.and_true, if_true, hask]
  simp [List.append_assoc]

set_option maxRecDepth 20000 in
theorem resolve_noPort_window_noRetry_eq (env : Env) (c : String)
    (a : PromptAnswer) (rest : List PromptAnswer) (d : Bool) (n : Nat)
    (store : Option String) (r : PromptReturn)
    (h : (resolvePhase env d n store).1 = none)
    (hask : askToOpenDefoldEditorOrInputPortOrShowErrorMessage a = Except.ok r)
    (hr : r.retry = false) :
    tryToFindRunningEditorAndExecuteCommand env true c (a :: rest) d n store =
      ⟨Except.ok false, none,
        (resolvePhase env d n store).2.2 ++
          [REvent.savePortWrite none, REvent.promptShown]⟩ := by
  rw [tryToFindRunningEditorAndExecuteCommand.eq_def]
  simp only [h, Option.isNone_none, Bool.and_true, if_true, hask,
    promptReturn_portFromUser_none a r hask, hr, Bool.false_eq_true, if_false]
  simp [List.append_assoc]

set_option maxRecDepth 20000 in
theorem resolve_noPort_window_retry_eq (env : Env) (c : String)
    (a : PromptAnswer) (rest : List PromptAnswer) (d : Bool) (n : Nat)
    (store : Option String) (r : PromptReturn)
    (h : (resolvePhase env d n store).1 = none)
    (hask : askToOpenDefoldEditorOrInputPortOrShowErrorMessage a = Except.ok r)
    (hr : r.retry = true) :
    tryToFindRunningEditorAndExecuteCommand env true c (a :: rest) d n store =
      ⟨(tryToFindRunningEditorAndExecuteCommand env true c rest false
          (resolvePhase env d n store).2.1 none).result,
        (tryToFindRunningEditorAndExecuteCommand env true c rest false
          (resolvePhase env d n store).2.1 none).store,
        (resolvePhase env d n store).2.2 ++
          REvent.savePortWrite none :: REvent.promptShown ::
            (tryToFindRunningEditorAndExecuteCommand env true c rest false
              (resolvePhase env d n store).2.1 none).events⟩ := by
  rw [tryToFindRunningEditorAndExecuteCommand.eq_def]
  simp only [h, Option.isNone_none, Bool.and_true, if_true, hask,
    promptReturn_portFromUser_none a r hask, hr]
  simp [List.append_assoc]

theorem resolvePhase_no_dispatch (env : Env) (d : Bool) (n : Nat) (store : Option String)
    (p c : String) : REvent.dispatchCmd p c ∉ (resolvePhase env d n store).2.2 := by
  intro h
  rcases resolvePhase_events_shape env d n store _ h with ⟨k, q, b, he⟩ | he <;> simp at he

theorem dispatch_decomp_portFound (env : Env) (sw : Bool) (c : String)
    (answers : List PromptAnswer) (d : Bool) (n : Nat) (store : Option String)
    (p q c' : String) (hport : (resolvePhase env d n store).1 = some p)
    (hd : REvent.dispatchCmd q c' ∈
      (tryToFindRunningEditorAndExecuteCommand env sw c answers d n store).events) :
    ∃ pre post k,
      (tryToFindRunningEditorAndExecuteCommand env sw c answers d n store).events =
        pre ++ REvent.probeCall k q true :: REvent.dispatchCmd q c' :: post := by
  rw [resolve_portFound_eq env sw c answers d n store p hport] at hd ⊢
  split at hd
  case isTrue hal =>
    rw [if_pos hal]
    simp only [ResolveOut.events, List.mem_append, List.mem_cons,
      List.mem_singleton] at hd
    rcases hd with h | h | h | h
    · exact absurd h (resolvePhase_no_dispatch env d n store q c')
    · simp at h
    · simp at h
    · rcases h with h | h
      · obtain ⟨hq, hc⟩ := by simpa using h
        subst hq; subst hc
        refine ⟨(resolvePhase env d n store).2.2 ++
            [REvent.savePortWrite (some q)], [],
          (resolvePhase env d n store).2.1, ?_⟩
        simp [List.append_assoc]
      · simp at h
  case isFalse hal =>
    rw [if_neg hal]
    simp only [ResolveOut.events, List.mem_append, List.mem_cons,
      List.mem_singleton] at hd
    rcases hd with h | h | h | h
    · exact absurd h (resolvePhase_no_dispatch env d n store q c')
    · simp at h
    · simp at h
    · simp at h

theorem dispatch_decomp (env : Env) (sw : Bool) (c : String) :
    ∀ (answers : List PromptAnswer) (d : Bool) (n : Nat) (store : Option String)
      (q c' : String),
      REvent.dispatchCmd q c' ∈
          (tryToFindRunningEditorAndExecuteCommand env sw c answers d n store).events →
        ∃ pre post k,
          (tryToFindRunningEditorAndExecuteCommand env sw c answers d n store).events =
            pre ++ REvent.probeCall k q true :: REvent.dispatchCmd q c' :: post := by
  intro answers
  induction answers with
  | nil =>
    intro d n store q c' hd
    cases hport : (resolvePhase env d n store).1 with
    | some port => exact dispatch_decomp_portFound env sw c [] d n store port q c' hport hd
    | none =>
      cases sw with
      | false =>
        rw [resolve_noPort_noWindow_eq env c [] d n store hport] at hd
        simp only [ResolveOut.events, List.mem_append, List.mem_singleton] at hd
        rcases hd with h | h
        · exact absurd h (resolvePhase_no_dispatch env d n store q c')
        · simp at h
      | true =>
        rw [resolve_noPort_window_nil_eq env c d n store hport] at hd
        simp only [ResolveOut.events, List.mem_append, List.mem_cons,
          List.mem_singleton] at hd
        rcases hd with h | h | h
        · exact absurd h (resolvePhase_no_dispatch env d n store q c')
        · simp at h
        · simp at h
  | cons a rest ih =>
    intro d n store q c' hd
    cases hport : (resolvePhase env d n store).1 with
    | some port =>
      exact dispatch_decomp_portFound env sw c (a :: rest) d n store port q c' hport hd
    | none =>
      cases sw with
      | false =>
        rw [resolve_noPort_noWindow_eq env c (a :: rest) d n store hport] at hd
        simp only [ResolveOut.events, List.mem_append, List.mem_singleton] at hd
        rcases hd with h | h
        · exact absurd h (resolvePhase_no_dispatch env d n store q c')
        · simp at h
      | true =>
        cases hask : askToOpenDefoldEditorOrInputPortOrShowErrorMessage a with
        | error e =>
          rw [resolve_noPort_window_reject_eq env c a rest d n store e hport hask] at hd
          simp only [ResolveOut.events, List.mem_append, List.mem_cons,
            List.mem_singleton] at hd
          rcases hd with h | h | h
          · exact absurd h (resolvePhase_no_dispatch env d n store q c')
          · simp at h
          · simp at h
        | ok r =>
          cases hr : r.retry with
          | false =>
            rw [resolve_noPort_window_noRetry_eq env c a rest d n store r hport hask hr] at hd
            simp only [ResolveOut.events, List.mem_append, List.mem_cons,
              List.mem_singleton] at hd
            rcases hd with h | h | h
            · exact absurd h (resolvePhase_no_dispatch env d n store q c')
            · simp at h
            · simp at h
          | true =>
            rw [resolve_noPort_window_retry_eq env c a rest d n store r hport hask hr] at hd ⊢
            simp only [ResolveOut.events, List.mem_append, List.mem_cons] at hd
            rcases hd with h | h | h | h
            · exact absurd h (resolvePhase_no_dispatch env d n store q c')
            · simp at h
            · simp at h
            · obtain ⟨pre, post, k, hEq⟩ :=
                ih false (resolvePhase env d n store).2.1 none q c' h
              refine ⟨(resolvePhase env d n store).2.2 ++
                  (REvent.savePortWrite none :: REvent.promptShown :: pre), post, k, ?_⟩
              simp only [ResolveOut.events]
              rw [hEq]
              simp [List.append_assoc]

theorem getSaved_no_logScan (env : Env) (n : Nat) (store : Option String) :
    REvent.logScan ∉ (getSavedPortOfRunningEditor env n store).2.2 := by
  intro h
  rcases getSaved_events_shape env n store _ h with ⟨k, q, b, he⟩
  simp at he

theorem logScan_not_mem_noDetect (env : Env) (sw : Bool) (c : String) :
    ∀ (answers : List PromptAnswer) (n : Nat) (store : Option String),
      REvent.logScan ∉
        (tryToFindRunningEditorAndExecuteCommand env sw c answers false n store).events := by
  intro answers
  induction answers with
  | nil =>
    intro n store hmem
    simp only [tryToFindRunningEditorAndExecuteCommand, resolvePhase_noDetect] at hmem
    split at hmem
    · simp only [ResolveOut.events, List.mem_append, List.mem_singleton] at hmem
      rcases hmem with (h | h) | h
      · exact getSaved_no_logScan env n store h
      · simp at h
      · simp at h
    · split at hmem
      · simp only [ResolveOut.events, List.mem_append, List.mem_singleton] at hmem
        rcases hmem with h | h
        · exact getSaved_no_logScan env n store h
        · simp at h
      · split at hmem
        · simp only [ResolveOut.events, List.mem_append, List.mem_singleton,
            List.mem_cons] at hmem
          rcases hmem with (h | h) | h | h
          · exact getSaved_no_logScan env n store h
          · simp at h
          · simp at h
          · simp at h
        · simp only [ResolveOut.events, List.mem_append, List.mem_singleton] at hmem
          rcases hmem with (h | h) | h
          · exact getSaved_no_logScan env n store h
          · simp at h
          · simp at h
  | cons a rest ih =>
    intro n store hmem
    simp only [tryToFindRunningEditorAndExecuteCommand, resolvePhase_noDetect] at hmem
    split at hmem
    · split at hmem
      · simp only [ResolveOut.events, List.mem_append, List.mem_singleton] at hmem
        rcases hmem with (h | h) | h
        · exact getSaved_no_logScan env n store h
        · simp at h
        · simp at h
      · rename_i result heq
        rw [promptReturn_portFromUser_none a result heq] at hmem
        split at hmem
        · simp only [ResolveOut.events, List.mem_append, List.mem_singleton,
            List.append_nil] at hmem
          rcases hmem with ((h | h) | h) | h
          · exact getSaved_no_logScan env n store h
          · simp at h
          · simp at h
          · exact ih _ _ h
        · simp only [ResolveOut.events, List.mem_append, List.mem_singleton,
            List.append_nil] at hmem
          rcases hmem with (h | h) | h
          · exact getSaved_no_logScan env n store h
          · simp at h
          · simp at h
    · split at hmem
      · simp only [ResolveOut.events, List.mem_append, List.mem_singleton] at hmem
        rcases hmem with h | h
        · exact getSaved_no_logScan env n store h
        · simp at h
      · split at hmem
        · simp only [ResolveOut.events, List.mem_append, List.mem_singleton,
            List.mem_cons] at hmem
          rcases hmem with (h | h) | h | h
          · exact getSaved_no_logScan env n store h
          · simp at h
          · simp at h
          · simp at h
        · simp only [ResolveOut.events, List.mem_append, List.mem_singleton] at hmem
          rcases hmem with (h | h) | h
          · exact getSaved_no_logScan env n store h
          · simp at h
          · simp at h

theorem logScan_not_mem_cacheHit (env : Env) (sw : Bool) (c : String)
    (answers : List PromptAnswer) (d : Bool) (n : Nat) (store : Option String)
    (p : String) (h : (getSavedPortOfRunningEditor env n store).1 = some p) :
    REvent.logScan ∉
      (tryToFindRunningEditorAndExecuteCommand env sw c answers d n store).events := by
  have hphase : (resolvePhase env d n store).1 = some p := by
    rw [resolvePhase_cacheHit env d n store p h]; exact h
  have hev : (resolvePhase env d n store).2.2 = (getSavedPortOfRunningEditor env n store).2.2 := by
    rw [resolvePhase_cacheHit env d n store p h]
  intro hmem
  rw [resolve_portFound_eq env sw c answers d n store p hphase] at hmem
  split at hmem
  · simp only [ResolveOut.events, List.mem_append, List.mem_cons,
      List.mem_singleton] at hmem
    rcases hmem with hx | hx | hx | hx
    · rw [hev] at hx
      exact getSaved_no_logScan env n store hx
    · simp at hx
    · simp at hx
    · simp at hx
  · simp only [ResolveOut.events, List.mem_append, List.mem_cons,
      List.mem_singleton] at hmem
    rcases hmem with hx | hx | hx | hx
    · rw [hev] at hx
      exact getSaved_no_logScan env n store hx
    · simp at hx
    · simp at hx
    · simp at hx

theorem resolve_events_decomp (env : Env) (sw : Bool) (c : String)
    (answers : List PromptAnswer) (d : Bool) (n : Nat) (store : Option String) :
    ∃ rest,
      (tryToFindRunningEditorAndExecuteCommand env sw c answers d n store).events =
        (resolvePhase env d n store).2.2 ++
          REvent.savePortWrite (resolvePhase env d n store).1 :: rest := by
  cases answers with
  | nil =>
    simp only [tryToFindRunningEditorAndExecuteCommand]
    split
    · exact ⟨_, by (simp [List.append_assoc]; rfl)⟩
    · split
      · exact ⟨_, by (simp [List.append_assoc]; rfl)⟩
      · split
        · exact ⟨_, by (simp [List.append_assoc]; rfl)⟩
        · exact ⟨_, by (simp [List.append_assoc]; rfl)⟩
  | cons a rest =>
    simp only [tryToFindRunningEditorAndExecuteCommand]
    split
    · split
      · exact ⟨_, by (simp [List.append_assoc]; rfl)⟩
      · rename_i result heq
        rw [promptReturn_portFromUser_none a result heq]
        split
        · exact ⟨_, by (simp [List.append_assoc]; rfl)⟩
        · exact ⟨_, by (simp [List.append_assoc]; rfl)⟩
    · split
      · exact ⟨_, by (simp [List.append_assoc]; rfl)⟩
      · split
        · exact ⟨_, by (simp [List.append_assoc]; rfl)⟩
        · exact ⟨_, by (simp [List.append_assoc]; rfl)⟩

theorem extract_foldl_filterMap (logLines : List String) (acc : List String) :
    logLines.foldl (fun result line =>
        match editorPortOfLogLine line with
        | some p => result ++ [p]
        | none => result) acc =
      acc ++ logLines.filterMap editorPortOfLogLine := by
  induction logLines generalizing acc with
  | nil => simp
  | cons l rest ih =>
    simp only [List.foldl_cons, List.filterMap_cons]
    cases h : editorPortOfLogLine l with
    | none => simp [h, ih]
    | some p => simp [h, ih]

theorem extractEditorPortsFrom_eq_filterMap (logLines : List String) :
    extractEditorPortsFrom logLines =
      (logLines.filterMap editorPortOfLogLine).reverse := by
  simp [extractEditorPortsFrom, extract_foldl_filterMap]

theorem editorPortOfLogLine_isSome (line : String) :
    (editorPortOfLogLine line).isSome =
      (specQualifiesByMarkersOnly line && (findLocalUrlPort line.data).isSome) := by
  simp only [editorPortOfLogLine, specQualifiesByMarkersOnly]
  cases h1 : includesSub line markJavaFXThread with
  | false => simp [h1]
  | true =>
    cases h2 : includesSub line markHttpServerSubsystem with
    | false => simp [h1, h2]
    | true =>
      cases h3 : includesSub line markServerRunningMsg with
      | false => simp [h1, h2, h3]
      | true => simp [h1, h2, h3]

theorem endsWith_script_not_ts (s : String) (h : endsWithStr s ".script" = true) :
    endsWithStr s ".ts" = false := by
  rw [Bool.eq_false_iff]
  intro hts
  have hsc : ".script".data <:+ s.data := of_decide_eq_true h
  have hts' : ".ts".data <:+ s.data := of_decide_eq_true hts
  rcases List.suffix_or_suffix_of_suffix hts' hsc with hx | hx
  · exact absurd hx (by decide)
  · exact absurd hx (by decide)

/-- C5: resolution short-circuits in order: a live cached port means the log
scanner is never run, and a resolution invoked with log scanning disabled
(`detectPort = false`) never runs the log scanner even when the cache yields
nothing. -/
theorem logScannerShortCircuit :
    ∀ (env : Env) (showWindow : Bool) (command : String) (answers : List PromptAnswer)
      (n : Nat) (store : Option String),
      (∀ (detectPort : Bool) (p : String),
        (getSavedPortOfRunningEditor env n store).1 = some p →
          REvent.logScan ∉ (tryToFindRunningEditorAndExecuteCommand env showWindow command
            answers detectPort n store).events) ∧
      REvent.logScan ∉ (tryToFindRunningEditorAndExecuteCommand env showWindow command
        answers false n store).events := by
  intro env sw c answers n store
  exact ⟨fun d p h => logScan_not_mem_cacheHit env sw c answers d n store p h,
    logScan_not_mem_noDetect env sw c answers n store⟩

/-- Witness for C5 at concrete inputs: a live cached port `8080`, and a
no-scan resolution over an empty world. -/
theorem logScannerShortCircuit_witness :
    REvent.logScan ∉ (tryToFindRunningEditorAndExecuteCommand envEveryPortLive true "build"
      [] true 0 (some "8080")).events ∧
    REvent.logScan ∉ (tryToFindRunningEditorAndExecuteCommand envNothingLive true "build"
      [] false 0 none).events :=
  ⟨(logScannerShortCircuit envEveryPortLive true "build" [] 0 (some "8080")).1 true "8080"
      (by decide),
   (logScannerShortCircuit envNothingLive true "build" [] 0 none).2⟩

/-- C6: a dispatch only ever happens directly after a successful liveness
probe of the dispatched port in the same resolution, and when the fresh
probe of the resolved port fails the resolver returns false without
dispatching. -/
theorem dispatchOnlyAfterLiveProbe :
    (∀ (env : Env) (showWindow : Bool) (command : String) (answers : List PromptAnswer)
        (detectPort : Bool) (n : Nat) (store : Option String) (p c' : String),
      REvent.dispatchCmd p c' ∈ (tryToFindRunningEditorAndExecuteCommand env showWindow
          command answers detectPort n store).events →
        ∃ pre post k,
          (tryToFindRunningEditorAndExecuteCommand env showWindow command answers
              detectPort n store).events =
            pre ++ REvent.probeCall k p true :: REvent.dispatchCmd p c' :: post) ∧
    (∀ (env : Env) (showWindow : Bool) (command : String) (answers : List PromptAnswer)
        (n : Nat) (store : Option String) (p : String),
      store = some p → p ≠ "" →
      isDefoldEditorRunning (env.http n) p = true →
      isDefoldEditorRunning (env.http (n + 1)) p = false →
        (tryToFindRunningEditorAndExecuteCommand env showWindow command answers
          true n store).result = Except.ok false ∧
        ∀ q c', REvent.dispatchCmd q c' ∉ (tryToFindRunningEditorAndExecuteCommand env
          showWindow command answers true n store).events) := by
  constructor
  · intro env sw c answers d n store p c' hd
    exact dispatch_decomp env sw c answers d n store p c' hd
  · intro env sw c answers n store p hstore hne halive hdead
    subst hstore
    have hsaved : (getSavedPortOfRunningEditor env n (some p)).1 = some p := by
      simp [getSavedPortOfRunningEditor, hne, halive]
    have hphase1 : (resolvePhase env true n (some p)).1 = some p := by
      rw [resolvePhase_cacheHit env true n (some p) p hsaved]
      exact hsaved
    have hn2 : (resolvePhase env true n (some p)).2.1 = n + 1 := by
      rw [resolvePhase_cacheHit env true n (some p) p hsaved]
      simp [getSavedPortOfRunningEditor, hne]
    rw [resolve_portFound_eq env sw c answers true n (some p) p hphase1, hn2,
      if_neg (by simp [hdead])]
    refine ⟨rfl, ?_⟩
    intro q c' hq
    simp only [ResolveOut.events, List.mem_append, List.mem_cons,
      List.mem_singleton] at hq
    rcases hq with h | h | h
    · exact resolvePhase_no_dispatch env true n (some p) q c' h
    · simp at h
    · simp at h

/-- Witness for C6: a cached editor on `8080` that answers the cache probe
and then dies before the re-verification probe. -/
theorem dispatchOnlyAfterLiveProbe_witness :
    (tryToFindRunningEditorAndExecuteCommand envDiesAfterFirstProbe true "build" [] true 0
      (some "8080")).result = Except.ok false ∧
    REvent.dispatchCmd "8080" "build" ∉ (tryToFindRunningEditorAndExecuteCommand
      envDiesAfterFirstProbe true "build" [] true 0 (some "8080")).events := by
  have h := dispatchOnlyAfterLiveProbe.2 envDiesAfterFirstProbe true "build" [] 0
    (some "8080") "8080" rfl (by decide) (by decide) (by decide)
  exact ⟨h.1, h.2 "8080" "build"⟩

/-- C10: every resolution attempt first writes the outcome of its cache and
log-scan phase (the live port, or `none` when nothing was found) into the
persisted cache entry, before any not-found handling or user prompt: the
events preceding that write are only probes and log scans, never a prompt or
another cache write. -/
theorem phaseOutcomeSavedBeforePrompt :
    ∀ (env : Env) (showWindow : Bool) (command : String) (answers : List PromptAnswer)
      (detectPort : Bool) (n : Nat) (store : Option String),
      (∃ rest,
        (tryToFindRunningEditorAndExecuteCommand env showWindow command answers
            detectPort n store).events =
          (resolvePhase env detectPort n store).2.2 ++
            REvent.savePortWrite (resolvePhase env detectPort n store).1 :: rest) ∧
      (∀ e ∈ (resolvePhase env detectPort n store).2.2,
        e ≠ REvent.promptShown ∧ ∀ v, e ≠ REvent.savePortWrite v) := by
  intro env sw c answers d n store
  refine ⟨resolve_events_decomp env sw c answers d n store, ?_⟩
  intro e he
  rcases resolvePhase_events_shape env d n store e he with ⟨k, q, b, hx⟩ | hx
  · subst hx
    exact ⟨by simp, fun v => by simp⟩
  · subst hx
    exact ⟨by simp, fun v => by simp⟩

/-- Witness for C10: with a stale cached port `9999` and no reachable
editor, the phase outcome `none` is written, erasing the stored port. -/
theorem phaseOutcomeSavedBeforePrompt_witness :
    (∃ rest,
      (tryToFindRunningEditorAndExecuteCommand envNothingLive true "build" [] true 0
          (some "9999")).events =
        (resolvePhase envNothingLive true 0 (some "9999")).2.2 ++
          REvent.savePortWrite (resolvePhase envNothingLive true 0 (some "9999")).1 :: rest) ∧
    (tryToFindRunningEditorAndExecuteCommand envNothingLive true "build" [] true 0
      (some "9999")).store = none :=
  ⟨(phaseOutcomeSavedBeforePrompt envNothingLive true "build" [] true 0 (some "9999")).1,
   by decide⟩

/-- C7: the cache read probes the stored value before trusting it: it
returns the stored port exactly when the stored value is non-empty and the
probe succeeds, returns absent when the stored value is empty or the probe
fails, and never writes or deletes the stored entry itself. -/
theorem cacheGetProbesBeforeReturn :
    ∀ (env : Env) (n : Nat) (store : Option String),
      (∀ p, (getSavedPortOfRunningEditor env n store).1 = some p ↔
        (store.getD "" = p ∧ p ≠ "" ∧ isDefoldEditorRunning (env.http n) p = true)) ∧
      ((store.getD "" = "" ∨ isDefoldEditorRunning (env.http n) (store.getD "") = false) →
        (getSavedPortOfRunningEditor env n store).1 = none) ∧
      (∀ v, REvent.savePortWrite v ∉ (getSavedPortOfRunningEditor env n store).2.2) := by
  intro env n store
  refine ⟨?_, ?_, ?_⟩
  · intro p
    simp only [getSavedPortOfRunningEditor]
    by_cases hs : store.getD "" = ""
    · rw [if_pos hs]
      constructor
      · intro h
        simp at h
      · rintro ⟨hp, hnp, _⟩
        exact absurd (hp.symm.trans hs) hnp
    · rw [if_neg hs]
      by_cases hal : isDefoldEditorRunning (env.http n) (store.getD "") = true
      · rw [if_pos hal]
        constructor
        · intro h
          have hp : store.getD "" = p := by simpa using h
          exact ⟨hp, fun hc => hs (hp.trans hc), hp ▸ hal⟩
        · rintro ⟨hp, _, _⟩
          simpa using congrArg some hp
      · rw [if_neg hal]
        constructor
        · intro h
          simp at h
        · rintro ⟨hp, _, hpr⟩
          exact absurd (hp ▸ hpr) hal
  · intro h
    simp only [getSavedPortOfRunningEditor]
    by_cases hs : store.getD "" = ""
    · rw [if_pos hs]
    · rw [if_neg hs]
      rcases h with h | h
      · exact absurd h hs
      · rw [h]
        simp
  · intro v hmem
    rcases getSaved_events_shape env n store _ hmem with ⟨k, q, b, he⟩
    simp at he

/-- Witness for C7: a stale `8080` is rejected when no editor answers, and
a live `8080` is returned when the probe succeeds. -/
theorem cacheGetProbesBeforeReturn_witness :
    (getSavedPortOfRunningEditor envNothingLive 0 (some "8080")).1 = none ∧
    (getSavedPortOfRunningEditor envEveryPortLive 0 (some "8080")).1 = some "8080" :=
  ⟨(cacheGetProbesBeforeReturn envNothingLive 0 (some "8080")).2.1 (Or.inr (by decide)),
   ((cacheGetProbesBeforeReturn envEveryPortLive 0 (some "8080")).1 "8080").mpr
     ⟨rfl, by decide, by decide⟩⟩

/-- C8: the liveness prober and the command dispatcher are total functions
into booleans: each answers true exactly when its HTTP call yields a 2xx
status, and any network failure or timeout, as well as any status outside
the 2xx range, collapses uniformly to false. -/
theorem proberAndDispatcherCollapseFailures :
    ∀ (http : HttpRequest → HttpResult) (port command : String),
      (isDefoldEditorRunning http port = true ↔
        ∃ s, http (probeRequestFor port) = HttpResult.status s ∧ 200 ≤ s ∧ s < 300) ∧
      ((executeCommandInDefoldEditor http port command).1 = true ↔
        ∃ s, http (commandRequestFor port command) = HttpResult.status s ∧
          200 ≤ s ∧ s < 300) ∧
      (http (probeRequestFor port) = HttpResult.failure →
        isDefoldEditorRunning http port = false) ∧
      (http (commandRequestFor port command) = HttpResult.failure →
        (executeCommandInDefoldEditor http port command).1 = false) := by
  intro http port command
  refine ⟨?_, ?_, ?_, ?_⟩
  · cases hr : http (probeRequestFor port) with
    | status s => simp [isDefoldEditorRunning, hr, and_assoc]
    | failure => simp [isDefoldEditorRunning, hr]
  · cases hr : http (commandRequestFor port command) with
    | status s => simp [executeCommandInDefoldEditor, hr, and_assoc]
    | failure => simp [executeCommandInDefoldEditor, hr]
  · intro h
    simp [isDefoldEditorRunning, h]
  · intro h
    simp [executeCommandInDefoldEditor, h]

/-- Witness for C8: concrete collapses at port 8080: a timeout probe and a
500 dispatch both yield false, a 204 dispatch yields true. -/
theorem proberAndDispatcherCollapseFailures_witness :
    isDefoldEditorRunning (fun _ => HttpResult.failure) "8080" = false ∧
    (executeCommandInDefoldEditor (fun _ => HttpResult.status 500) "8080" "build").1 = false ∧
    (executeCommandInDefoldEditor (fun _ => HttpResult.status 204) "8080" "build").1 = true :=
  ⟨(proberAndDispatcherCollapseFailures (fun _ => HttpResult.failure) "8080" "build").2.2.1 rfl,
   by
    have h := (proberAndDispatcherCollapseFailures (fun _ => HttpResult.status 500)
      "8080" "build").2.1
    simp only [Bool.eq_false_iff]
    intro hc
    obtain ⟨s, hs, _, hlt⟩ := h.mp hc
    obtain hs' : s = 500 := by simpa using hs.symm
    omega,
   ((proberAndDispatcherCollapseFailures (fun _ => HttpResult.status 204)
      "8080" "build").2.1).mpr ⟨204, rfl, by omega, by omega⟩⟩

/-- C9: one dispatch issues exactly one HTTP request: a bodyless POST to
`http://localhost:<port>/command/<command>` with a 2000ms timeout, and it
returns true exactly when the response status lies in `[200, 300)`. -/
theorem dispatchIssuesSinglePost :
    ∀ (http : HttpRequest → HttpResult) (port command : String),
      (executeCommandInDefoldEditor http port command).2 =
        [commandRequestFor port command] ∧
      commandRequestFor port command =
        ⟨"POST", "http://localhost:" ++ port ++ "/command/" ++ command, none, 2000⟩ ∧
      ((executeCommandInDefoldEditor http port command).1 = true ↔
        ∃ s, http (commandRequestFor port command) = HttpResult.status s ∧
          200 ≤ s ∧ s < 300) := by
  intro http port command
  refine ⟨?_, rfl, ?_⟩
  · cases hr : http (commandRequestFor port command) <;>
      simp [executeCommandInDefoldEditor, hr]
  · cases hr : http (commandRequestFor port command) with
    | status s => simp [executeCommandInDefoldEditor, hr, and_assoc]
    | failure => simp [executeCommandInDefoldEditor, hr]

/-- Witness for C9 at port 7777 and the hot-reload command: status 200
dispatch returns true and issues the expected single POST. -/
theorem dispatchIssuesSinglePost_witness :
    (executeCommandInDefoldEditor (fun _ => HttpResult.status 200) "7777"
        EditorCommand.hotReload).2 =
      [⟨"POST", "http://localhost:7777/command/hot-reload", none, 2000⟩] := by
  have h := (dispatchIssuesSinglePost (fun _ => HttpResult.status 200) "7777"
    EditorCommand.hotReload).1
  rw [h]
  decide

/-- C2: a saved file whose name ends with an allow-listed extension triggers
the hot-reload dispatch with the not-found prompt suppressed; a saved `.ts`
file is dispatched after the fixed 300ms grace delay, a saved `.script`
file immediately with no delay. -/
theorem saveTriggerHotReload :
    ∀ fileName : String,
      ((∃ ext ∈ fileExtensionsThatTriggerHotReload, endsWithStr fileName ext = true) →
        ∃ delay, onDidSaveTextDocument fileName =
          some ⟨false, delay, EditorCommand.hotReload⟩) ∧
      (endsWithStr fileName ".ts" = true →
        onDidSaveTextDocument fileName = some ⟨false, 300, EditorCommand.hotReload⟩) ∧
      (endsWithStr fileName ".script" = true →
        onDidSaveTextDocument fileName = some ⟨false, 0, EditorCommand.hotReload⟩) := by
  intro fileName
  refine ⟨?_, ?_, ?_⟩
  · rintro ⟨ext, hmem, hends⟩
    refine ⟨if endsWithStr fileName ".ts" then 300 else 0, ?_⟩
    simp only [onDidSaveTextDocument]
    rw [if_pos (List.any_eq_true.mpr ⟨ext, hmem, hends⟩)]
  · intro h
    simp only [onDidSaveTextDocument]
    rw [if_pos (List.any_eq_true.mpr
      ⟨".ts", by simp [fileExtensionsThatTriggerHotReload], h⟩)]
    rw [if_pos h]
  · intro h
    have hts := endsWith_script_not_ts fileName h
    simp only [onDidSaveTextDocument]
    rw [if_pos (List.any_eq_true.mpr
      ⟨".script", by simp [fileExtensionsThatTriggerHotReload], h⟩)]
    rw [if_neg (by simp [hts])]

/-- Witness for C2: `foo.ts` reloads after the 300ms grace delay, `foo.script`
immediately, `foo.lua` with some delay; all with the prompt suppressed. -/
theorem saveTriggerHotReload_witness :
    onDidSaveTextDocument "foo.ts" = some ⟨false, 300, EditorCommand.hotReload⟩ ∧
    onDidSaveTextDocument "foo.script" = some ⟨false, 0, EditorCommand.hotReload⟩ ∧
    ∃ delay, onDidSaveTextDocument "foo.lua" =
      some ⟨false, delay, EditorCommand.hotReload⟩ :=
  ⟨(saveTriggerHotReload "foo.ts").2.1 (by decide),
   (saveTriggerHotReload "foo.script").2.2 (by decide),
   (saveTriggerHotReload "foo.lua").1 ⟨".lua", by decide, by decide⟩⟩

/-- Counterexample for C4 as frozen: this line carries all three markers, so
under the claim's qualification it is one qualifying line, yet the scanner
extracts zero ports from it because the `:local-url` pattern is absent. -/
theorem markersAloneDoNotYieldPort :
    List.countP (fun l => specQualifiesByMarkersOnly l) [lineMarkersOnly] = 1 ∧
    extractEditorPortsFrom [lineMarkersOnly] = [] := by
  decide

/-- C4 (amended): the scanner returns one port per line that carries all
three markers AND whose `:local-url "http://<host>:<port>"` pattern
matches, in reverse file order; equivalently it is the reversed
`filterMap` of the per-line extraction. -/
theorem logScannerPortsCharacterization :
    ∀ logLines : List String,
      extractEditorPortsFrom logLines =
        (logLines.filterMap editorPortOfLogLine).reverse ∧
      (extractEditorPortsFrom logLines).length =
        logLines.countP (fun l => (editorPortOfLogLine l).isSome) ∧
      ∀ line, (editorPortOfLogLine line).isSome =
        (specQualifiesByMarkersOnly line && (findLocalUrlPort line.data).isSome) := by
  intro logLines
  refine ⟨extractEditorPortsFrom_eq_filterMap logLines, ?_, editorPortOfLogLine_isSome⟩
  rw [extractEditorPortsFrom_eq_filterMap, List.length_reverse,
    List.length_filterMap_eq_countP]

/-- Witness for C4 on a concrete two-line log: the qualifying line with a
local-url yields its port, the marker-only line yields none. -/
theorem logScannerPortsCharacterization_witness :
    extractEditorPortsFrom [goodLogLine, lineMarkersOnly] =
      ([goodLogLine, lineMarkersOnly].filterMap editorPortOfLogLine).reverse ∧
    extractEditorPortsFrom [goodLogLine, lineMarkersOnly] = ["12345"] :=
  ⟨(logScannerPortsCharacterization [goodLogLine, lineMarkersOnly]).1, by decide⟩

/-- C1 as the code actually behaves (the failing scenario): cache empty, log
scan finds nothing, the user chooses Input Port and supplies `7777`, and a
probe of `7777` would succeed — yet the user's port is never persisted
(`savePortWrite (some "7777")` never happens, because the prompt result
carries the port under the key `port` while the caller reads
`portFromUser`), the retry pass finds nothing, prompts a second time, no
dispatch happens and the resolver returns false with an erased cache. -/
theorem manualPortEntryNeverPersisted :
    isDefoldEditorRunning (envEveryPortLive.http 0) "7777" = true ∧
    manualPortRun.result = Except.ok false ∧
    manualPortRun.store = none ∧
    REvent.savePortWrite (some "7777") ∉ manualPortRun.events ∧
    REvent.dispatchCmd "7777" EditorCommand.hotReload ∉ manualPortRun.events ∧
    manualPortRun.events.count REvent.promptShown = 2 := by
  decide

/-- C3 as the code actually behaves: when the prompt promise rejects, the
wrapper's `try/catch` (which only intercepts synchronous throws) does not
fire, so no generic error notification is produced and the rejection
escapes the resolver instead of terminating as a not-found `false`. -/
theorem promptRejectionEscapesResolver :
    askToOpenDefoldEditorOrInputPortOrShowErrorMessage PromptAnswer.reject =
      Except.error () ∧
    promptRejectRun.result = Except.error () ∧
    promptRejectRun.result ≠ Except.ok false := by
  decide

end DefoldBuddy
